import Mathlib

/-!
Verification development for the dioxus CLI development server
(`packages/cli/src/server/mod.rs`): a shallow embedding of the
hot-reload coordination engine — the build manager, the two file
watchers with their timestamp debouncer, the watch-path registration
loops, and the websocket session gateway — together with theorems
settling the specification claims about them.

Modelling conventions:
- `chrono::Local::now().timestamp()` values are `Int` (whole seconds).
- External effects (invoking `builder::build`, regenerating the dev
  page, publishing on the reload channel, console printing, logging,
  broadcasting a hot patch) are recorded as an `Act` trace in the order
  the source performs them.
- The outcome of the external builder is an input
  (`Except String BuildResult`), since `builder::build` is outside this
  file's scope.
-/

/-- A template payload carried by `Template<'static>`; its structure is
irrelevant to the watcher logic, so it is abstracted to a tag. -/
abbrev Template := Nat

/-- A filesystem path as the watcher sees it: a display name and the
extension returned by `path.extension().and_then(|p| p.to_str())`. -/
structure FsPath where
  name : String
  ext : Option String
deriving DecidableEq

/-- The configuration fields of `CrateConfig` consulted by the embedded
code: `config.dioxus_config.web.watcher.reload_html`. -/
structure WatcherConfig where
  reload_html : Option Bool
deriving DecidableEq

/-- The shape of `BuildResult` as consumed here: warning count and
elapsed time (their values are opaque to the server logic). -/
structure BuildResult where
  warnings : Nat
  elapsed_time : Nat
deriving DecidableEq

/-- Observable actions performed by the embedded server code, in source
order. -/
inductive Act where
  | invokeBuild
  | regenDevPage
  | publishReload
  | printConsole
  | logError (msg : String)
  | processPath (p : FsPath)
  | sendHotPatch (t : Template)
deriving DecidableEq

namespace BuildManager

/-- `BuildManager::rebuild` (mod.rs lines 50-67): invoke
`builder::build(&self.config, true)`; on error, propagate it (the `?`)
without any further action.  On success, regenerate the dev page when
`reload_html.unwrap_or(false)`, then send `()` on `reload_tx` (the
`FullReload` publication), then return `Ok(result)`.  The first
component is the trace of actions, the second the returned value. -/
def rebuild (cfg : WatcherConfig) (build : Except String BuildResult) :
    List Act × Except String BuildResult :=
  match build with
  | .error e => ([Act.invokeBuild], .error e)
  | .ok r =>
      (Act.invokeBuild ::
        ((if cfg.reload_html.getD false then [Act.regenDevPage] else []) ++
          [Act.publishReload]),
        .ok r)

end BuildManager

/-- Number of `publishReload` actions in a trace. -/
def countReloadPublishes : List Act → Nat
  | [] => 0
  | Act.publishReload :: r => countReloadPublishes r + 1
  | _ :: r => countReloadPublishes r

/-- Number of `invokeBuild` actions in a trace. -/
def countBuilds : List Act → Nat
  | [] => 0
  | Act.invokeBuild :: r => countBuilds r + 1
  | _ :: r => countBuilds r

/-- The hot-patch payloads broadcast in a trace, in order. -/
def sentTemplates : List Act → List Template
  | [] => []
  | Act.sendHotPatch t :: r => t :: sentTemplates r
  | _ :: r => sentTemplates r

/-- C6: `BuildManager.rebuild` publishes a `FullReload` message if and
only if the external build succeeds — exactly one publication per
successful call, placed after the optional host-page regeneration and
as the last action before the result is returned (`getLast?`), with the
regeneration present exactly when the configuration requests it; on
failure the error is returned for console reporting and nothing is
published. -/
theorem c6_rebuild_publishes_iff_success (cfg : WatcherConfig) :
    (∀ r : BuildResult,
      (BuildManager.rebuild cfg (Except.ok r)).2 = Except.ok r ∧
      countReloadPublishes (BuildManager.rebuild cfg (Except.ok r)).1 = 1 ∧
      (BuildManager.rebuild cfg (Except.ok r)).1.getLast? = some Act.publishReload ∧
      ((Act.regenDevPage ∈ (BuildManager.rebuild cfg (Except.ok r)).1) ↔
        cfg.reload_html.getD false = true)) ∧
    (∀ e : String,
      (BuildManager.rebuild cfg (Except.error e)).2 = Except.error e ∧
      countReloadPublishes (BuildManager.rebuild cfg (Except.error e)).1 = 0) := by
  refine ⟨fun r => ?_, fun e => ?_⟩
  · rcases cfg with ⟨rh⟩
    rcases rh with _ | b
    · simp [BuildManager.rebuild, countReloadPublishes]
    · cases b <;>
        simp [BuildManager.rebuild, countReloadPublishes]
  · simp [BuildManager.rebuild, countReloadPublishes]

/-- The later of two instants (integer-second timestamps). -/
def laterOf (a b : Int) : Int := if a ≤ b then b else a

/-- An event delivered to the watcher callback of `setup_file_watcher`:
its delivery time at the callback queue, the wall-clock seconds the
rebuild it may trigger takes, and whether `builder::build` succeeds. -/
structure WEvent where
  arrival : Int
  dur : Nat
  ok : Bool
deriving DecidableEq

/-- `setup_file_watcher` callback (mod.rs lines 459-490), run over a
queue of events.  `notify` delivers events to the closure serially, so
the callback for an event starts at `laterOf clock arrival` where
`clock` is when the previous callback finished.  The body: if
`now > last_update_time`, call `build_manager.rebuild()` (taking `dur`
seconds); on `Ok`, set `last_update_time` to the post-rebuild `now`; on
`Err`, only log — `last_update_time` is left unchanged.  Returns the
final `last_update_time`, the final clock, and the list of rebuild
intervals `(start, finish)` in execution order. -/
def fileWatcherRun : Int → Int → List WEvent → Int × Int × List (Int × Int)
  | last, clock, [] => (last, clock, [])
  | last, clock, e :: rest =>
    let t := laterOf clock e.arrival
    if last < t then
      let fin := t + (e.dur : Int)
      let r := fileWatcherRun (if e.ok then fin else last) fin rest
      (r.1, r.2.1, (t, fin) :: r.2.2)
    else
      fileWatcherRun last t rest

theorem laterOf_left_le (a b : Int) : a ≤ laterOf a b := by
  unfold laterOf; split <;> omega

theorem laterOf_eq_right {a b : Int} (h : a ≤ b) : laterOf a b = b := if_pos h

theorem laterOf_eq_left {a b : Int} (h : b ≤ a) : laterOf a b = a := by
  unfold laterOf; split <;> omega

theorem fileWatcherRun_cons (last clock : Int) (e : WEvent) (rest : List WEvent) :
    fileWatcherRun last clock (e :: rest) =
      if last < laterOf clock e.arrival then
        ((fileWatcherRun (if e.ok then laterOf clock e.arrival + (e.dur : Int) else last)
            (laterOf clock e.arrival + (e.dur : Int)) rest).1,
          (fileWatcherRun (if e.ok then laterOf clock e.arrival + (e.dur : Int) else last)
            (laterOf clock e.arrival + (e.dur : Int)) rest).2.1,
          (laterOf clock e.arrival, laterOf clock e.arrival + (e.dur : Int)) ::
            (fileWatcherRun (if e.ok then laterOf clock e.arrival + (e.dur : Int) else last)
              (laterOf clock e.arrival + (e.dur : Int)) rest).2.2)
      else fileWatcherRun last (laterOf clock e.arrival) rest := rfl

/-- Every rebuild interval starts no earlier than the clock at entry,
has nonnegative duration, and consecutive intervals never overlap. -/
theorem fileWatcherRun_intervals_sequential (evts : List WEvent) :
    ∀ last clock : Int,
      (∀ iv ∈ (fileWatcherRun last clock evts).2.2, clock ≤ iv.1 ∧ iv.1 ≤ iv.2) ∧
      List.Chain' (fun a b : Int × Int => a.2 ≤ b.1) (fileWatcherRun last clock evts).2.2 := by
  induction evts with
  | nil => intro last clock; simp [fileWatcherRun]
  | cons e rest ih =>
    intro last clock
    rw [fileWatcherRun_cons]
    by_cases h : last < laterOf clock e.arrival
    · rw [if_pos h]
      have hc := laterOf_left_le clock e.arrival
      have hdur : laterOf clock e.arrival ≤ laterOf clock e.arrival + (e.dur : Int) := by
        have : (0 : Int) ≤ (e.dur : Int) := Int.natCast_nonneg _
        omega
      obtain ⟨ihmem, ihchain⟩ :=
        ih (if e.ok then laterOf clock e.arrival + (e.dur : Int) else last)
          (laterOf clock e.arrival + (e.dur : Int))
      refine ⟨?_, ?_⟩
      · intro iv hiv
        rcases List.mem_cons.mp hiv with hiv | hiv
        · subst hiv; exact ⟨hc, hdur⟩
        · obtain ⟨h1, h2⟩ := ihmem iv hiv
          exact ⟨le_trans hc (le_trans hdur h1), h2⟩
      · refine List.chain'_cons'.mpr ⟨?_, ihchain⟩
        intro y hy
        have hmem := ihmem y (List.mem_of_mem_head? hy)
        exact hmem.1
    · rw [if_neg h]
      have hc := laterOf_left_le clock e.arrival
      obtain ⟨ihmem, ihchain⟩ := ih last (laterOf clock e.arrival)
      refine ⟨fun iv hiv => ?_, ihchain⟩
      obtain ⟨h1, h2⟩ := ihmem iv hiv
      exact ⟨le_trans hc h1, h2⟩

/-- C2 counterexample: two rebuild triggers where the second arrives
(at t = 2) before the first rebuild completes (the first is delivered
at t = 1 and its rebuild takes 5 seconds, finishing at t = 6).  The
second is delivered at t = 6, the debounce check `now > last_update_time`
is `6 > 6` = false, and it is dropped: only one rebuild execution
occurs, refuting "exactly two rebuild executions occur in total". -/
theorem c2_counterexample :
    (fileWatcherRun 0 0 [⟨1, 5, true⟩, ⟨2, 5, true⟩]).2.2 = [((1 : Int), (6 : Int))] ∧
    (fileWatcherRun 0 0 [⟨1, 5, true⟩, ⟨2, 5, true⟩]).2.2.length ≠ 2 := by
  constructor <;> decide

/-- C2 amended: rebuild executions are serialized by the watcher
callback — every interval is well-formed and consecutive rebuilds never
overlap — and when a first accepted trigger rebuilds successfully, a
second trigger yields a second rebuild (starting only after the first
finishes) exactly when it is delivered after the first rebuild's
completion second; otherwise the debouncer drops it and only one
rebuild occurs, so two triggers give one or two rebuilds, not always
two. -/
theorem c2_amended :
    (∀ (last clock : Int) (evts : List WEvent),
      List.Chain' (fun a b : Int × Int => a.2 ≤ b.1) (fileWatcherRun last clock evts).2.2 ∧
      ∀ iv ∈ (fileWatcherRun last clock evts).2.2, iv.1 ≤ iv.2) ∧
    (∀ (last clock : Int) (e1 e2 : WEvent),
      last < laterOf clock e1.arrival → e1.ok = true →
      (laterOf clock e1.arrival + (e1.dur : Int) < e2.arrival →
        (fileWatcherRun last clock [e1, e2]).2.2 =
          [(laterOf clock e1.arrival, laterOf clock e1.arrival + (e1.dur : Int)),
            (e2.arrival, e2.arrival + (e2.dur : Int))]) ∧
      (e2.arrival ≤ laterOf clock e1.arrival + (e1.dur : Int) →
        (fileWatcherRun last clock [e1, e2]).2.2 =
          [(laterOf clock e1.arrival, laterOf clock e1.arrival + (e1.dur : Int))])) := by
  constructor
  · intro last clock evts
    obtain ⟨hmem, hchain⟩ := fileWatcherRun_intervals_sequential evts last clock
    exact ⟨hchain, fun iv hiv => (hmem iv hiv).2⟩
  · intro last clock e1 e2 h hok
    have step1 : fileWatcherRun last clock [e1, e2] =
        ((fileWatcherRun (laterOf clock e1.arrival + (e1.dur : Int))
            (laterOf clock e1.arrival + (e1.dur : Int)) [e2]).1,
          (fileWatcherRun (laterOf clock e1.arrival + (e1.dur : Int))
            (laterOf clock e1.arrival + (e1.dur : Int)) [e2]).2.1,
          (laterOf clock e1.arrival, laterOf clock e1.arrival + (e1.dur : Int)) ::
            (fileWatcherRun (laterOf clock e1.arrival + (e1.dur : Int))
              (laterOf clock e1.arrival + (e1.dur : Int)) [e2]).2.2) := by
      rw [fileWatcherRun_cons, if_pos h, hok]
      simp
    constructor
    · intro h2
      have ht2 : laterOf (laterOf clock e1.arrival + (e1.dur : Int)) e2.arrival = e2.arrival :=
        laterOf_eq_right (le_of_lt h2)
      have hacc : laterOf clock e1.arrival + (e1.dur : Int) <
          laterOf (laterOf clock e1.arrival + (e1.dur : Int)) e2.arrival := by
        rw [ht2]; exact h2
      rw [step1, fileWatcherRun_cons, if_pos hacc, ht2]
      simp [fileWatcherRun]
    · intro h2
      have ht2 : laterOf (laterOf clock e1.arrival + (e1.dur : Int)) e2.arrival =
          laterOf clock e1.arrival + (e1.dur : Int) := laterOf_eq_left h2
      have hacc : ¬ (laterOf clock e1.arrival + (e1.dur : Int) <
          laterOf (laterOf clock e1.arrival + (e1.dur : Int)) e2.arrival) := by
        rw [ht2]; omega
      rw [step1, fileWatcherRun_cons, if_neg hacc]
      simp [fileWatcherRun]

/-- Witness for `c2_amended` at concrete inputs: triggers delivered at
t = 1 (5-second successful rebuild, finishing at 6) and at t = 10 give
two non-overlapping rebuilds; with the second delivered at t = 2 only
one rebuild occurs. -/
theorem c2_amended_witness :
    (List.Chain' (fun a b : Int × Int => a.2 ≤ b.1)
      (fileWatcherRun 0 0 [⟨1, 5, true⟩, ⟨10, 2, true⟩]).2.2 ∧
      ∀ iv ∈ (fileWatcherRun 0 0 [⟨1, 5, true⟩, ⟨10, 2, true⟩]).2.2, iv.1 ≤ iv.2) ∧
    (fileWatcherRun 0 0 [⟨1, 5, true⟩, ⟨10, 2, true⟩]).2.2 =
      [((1 : Int), (6 : Int)), ((10 : Int), (12 : Int))] ∧
    (fileWatcherRun 0 0 [⟨1, 5, true⟩, ⟨2, 5, true⟩]).2.2 = [((1 : Int), (6 : Int))] := by
  refine ⟨c2_amended.1 0 0 [⟨1, 5, true⟩, ⟨10, 2, true⟩], ?_, ?_⟩
  · have h := (c2_amended.2 0 0 ⟨1, 5, true⟩ ⟨10, 2, true⟩ (by decide) (by decide)).1 (by decide)
    simpa using h
  · have h := (c2_amended.2 0 0 ⟨1, 5, true⟩ ⟨2, 5, true⟩ (by decide) (by decide)).2 (by decide)
    simpa using h

/-- The outcome of re-reading, re-parsing and diffing one source file
against its stored template sequence — the input the template index
reacts to (it abstracts the file's on-disk content). -/
inductive ParseDiff where
  | patchable (patch : List Template) (newSeq : List Template)
  | structural
  | parseFail (msg : String)
deriving DecidableEq

/-- `UpdateResult` of `dioxus_rsx::hot_reload` as matched in mod.rs. -/
inductive UpdateResult where
  | updatedRsx (msgs : List Template)
  | needsRebuild
deriving DecidableEq

/-- The stored template sequences of `FileMap<HtmlCtx>`, per file. -/
abbrev FileMapT := FsPath → List Template

/-- Modelled from the spec: `FileMap::update_rsx` (in the dioxus-rsx
hot-reload package of this repository, not under src/).  Per spec §4.2:
re-parse and diff the file; on an internally-patchable diff return
`PatchSet` (here `updatedRsx`) with the changed records and update the
stored sequence; on a structural change return `NeedsRebuild` without
mutating the stored state; on a parse failure return `Error` and leave
the map entry untouched. -/
def updateRsx (disk : FsPath → ParseDiff) (m : FileMapT) (p : FsPath) :
    Except String UpdateResult × FileMapT :=
  match disk p with
  | .patchable patch newSeq =>
      (.ok (.updatedRsx patch), fun q => if q = p then newSeq else m q)
  | .structural => (.ok .needsRebuild, m)
  | .parseFail e => (.error e, m)

/-- `path.extension().and_then(|p| p.to_str()) == Some("rs")`. -/
def isRs (p : FsPath) : Bool := p.ext = some "rs"

/-- The environment of the hot-reload watcher callback: the watcher
config, the on-disk parse/diff outcome per file, and the external
builder outcome. -/
structure HotEnv where
  cfg : WatcherConfig
  disk : FsPath → ParseDiff
  build : Except String BuildResult

/-- The rebuild branches of both watcher callbacks (mod.rs lines
536-552 and 563-579): `build_manager.rebuild()` followed by
`print_console_info` on `Ok` or `log::error!` on `Err`. -/
def rebuildAndReport (cfg : WatcherConfig) (build : Except String BuildResult) : List Act :=
  match BuildManager.rebuild cfg build with
  | (tr, .ok _) => tr ++ [Act.printConsole]
  | (tr, .error e) => tr ++ [Act.logError e]

/-- The `for path in evt.paths` loop of `setup_file_watcher_hot_reload`
(mod.rs lines 533-586).  For each path: if it is not a Rust source
file, rebuild the whole project and return; otherwise run
`map.update_rsx`: on `UpdatedRsx` extend the accumulated `messages`, on
`NeedsRebuild` rebuild and return, on `Err` log the error and continue.
Returns the trace, the file map after the loop, the accumulated
messages, and whether the loop ran to completion (`false` = the
closure's early `return`). -/
def hotReloadPaths (env : HotEnv) :
    List FsPath → FileMapT → List Template →
      List Act × FileMapT × List Template × Bool
  | [], m, msgs => ([], m, msgs, true)
  | p :: rest, m, msgs =>
    if isRs p then
      match updateRsx env.disk m p with
      | (.ok (.updatedRsx ms), m') =>
          let r := hotReloadPaths env rest m' (msgs ++ ms)
          (Act.processPath p :: r.1, r.2)
      | (.ok .needsRebuild, m') =>
          (Act.processPath p :: rebuildAndReport env.cfg env.build, m', msgs, false)
      | (.error e, m') =>
          let r := hotReloadPaths env rest m' msgs
          (Act.processPath p :: Act.logError e :: r.1, r.2)
    else
      (Act.processPath p :: rebuildAndReport env.cfg env.build, m, msgs, false)

/-- The mutable state captured by the hot-reload watcher closure:
`last_update_time` and the shared `file_map`. -/
structure HotState where
  last : Int
  fileMap : FileMapT

/-- The `setup_file_watcher_hot_reload` callback (mod.rs lines
526-593).  `t` is `chrono::Local::now().timestamp()` at the debounce
check, `t2` the second sample at line 591 (`t ≤ t2`); `evt = none`
models an `Err` event from notify (the `if let Ok(evt)` falls through,
but line 591 still runs).  If `t > last_update_time`: process the
paths; when the loop completes, send every accumulated message on
`hot_reload_tx` and set `last_update_time := t2`; when the loop
returned early, neither happens (the early `return` skips line 591). -/
def hotReloadCallback (env : HotEnv) (t t2 : Int) (evt : Option (List FsPath))
    (s : HotState) : HotState × List Act :=
  if s.last < t then
    match evt with
    | some paths =>
      let r := hotReloadPaths env paths s.fileMap []
      if r.2.2.2 then
        ({ last := t2, fileMap := r.2.1 }, r.1 ++ r.2.2.1.map Act.sendHotPatch)
      else
        ({ last := s.last, fileMap := r.2.1 }, r.1)
    | none => ({ last := t2, fileMap := s.fileMap }, [])
  else (s, [])

/-- The watch-path registration loop of `setup_file_watcher` (mod.rs
lines 492-499): `watcher.watch(..).unwrap()` per path — the first
failure panics, aborting startup. -/
inductive WatchRegResult where
  | ok
  | panicked (p : FsPath)
deriving DecidableEq

def setupFileWatcherRegister (canWatch : FsPath → Bool) : List FsPath → WatchRegResult
  | [] => .ok
  | p :: rest =>
      if canWatch p then setupFileWatcherRegister canWatch rest
      else .panicked p

/-- The watch-path registration loop of `setup_file_watcher_hot_reload`
(mod.rs lines 598-605): each failure is logged with `log::error!` and
the loop continues; the function always returns `Ok(watcher)`.  The
value is the list of log actions emitted. -/
def setupFileWatcherHotReloadRegister (canWatch : FsPath → Bool) : List FsPath → List Act
  | [] => []
  | p :: rest =>
      (if canWatch p then [] else [Act.logError p.name]) ++
        setupFileWatcherHotReloadRegister canWatch rest

/-- Outcome of one iteration of the `ws_handler` subscriber loop. -/
inductive GatewayOutcome where
  | panicked
  | closedConn
  | forwarded (cursor : Nat)
deriving DecidableEq

/-- One iteration of the `ws_handler` loop (mod.rs lines 637-650) over
a tokio broadcast receiver with capacity `cap`: `n` is the number of
messages published when `rx.recv()` resolves, `c` the receiver's
cursor (`c < n`, a message is pending), `sendOk` whether
`socket.send("reload")` succeeds, and `nResub` the number published by
the time `rx.resubscribe()` executes (`n ≤ nResub`).  If the backlog
overflowed (`n - c > cap`), `recv` returns `Err(RecvError::Lagged)` and
the `.unwrap()` panics.  Otherwise a message is received; a failed send
breaks the loop; a successful send forwards one `"reload"` text and
replaces the receiver via `resubscribe()`, whose cursor is the current
tail `nResub`. -/
def wsHandlerStep (cap n c : Nat) (sendOk : Bool) (nResub : Nat) : GatewayOutcome :=
  if cap < n - c then GatewayOutcome.panicked
  else if sendOk then GatewayOutcome.forwarded nResub
  else GatewayOutcome.closedConn

/-- The `ws_handler` loop run over a schedule of iterations
`(n, sendOk, nResub)`; returns how many `"reload"` texts were forwarded
to the client and whether the task panicked. -/
def wsHandlerRun (cap : Nat) : Nat → List (Nat × Bool × Nat) → Nat × Bool
  | _, [] => (0, false)
  | c, (n, sendOk, nResub) :: rest =>
    match wsHandlerStep cap n c sendOk nResub with
    | .panicked => (0, true)
    | .closedConn => (0, false)
    | .forwarded c2 =>
        let r := wsHandlerRun cap c2 rest
        (r.1 + 1, r.2)

/-- Whether a parse/diff outcome is the internally-patchable case. -/
def ParseDiff.isPatchable : ParseDiff → Bool
  | .patchable _ _ => true
  | _ => false

/-- The expected trace of a path-loop pass with no early return: one
marker per path, plus the error log for each file that fails to
parse. -/
def cleanActs (disk : FsPath → ParseDiff) : List FsPath → List Act
  | [] => []
  | p :: rest =>
      Act.processPath p ::
        ((match disk p with | .parseFail e => [Act.logError e] | _ => []) ++
          cleanActs disk rest)

/-- The hot-patch records accumulated over a batch, in path order. -/
def collectPatches (disk : FsPath → ParseDiff) : List FsPath → List Template
  | [] => []
  | p :: rest =>
      (match disk p with | .patchable patch _ => patch | _ => []) ++
        collectPatches disk rest

/-- The file map after a batch: each patchable file's stored sequence
is replaced, every other entry is untouched. -/
def applyClean (disk : FsPath → ParseDiff) : List FsPath → FileMapT → FileMapT
  | [], m => m
  | p :: rest, m =>
      applyClean disk rest
        (match disk p with
          | .patchable _ newSeq => fun q => if q = p then newSeq else m q
          | _ => m)

/-- A batch whose paths are all Rust files with non-structural diffs
runs the loop to completion, accumulating every patch record. -/
theorem hotReloadPaths_clean (env : HotEnv) (paths : List FsPath)
    (h : ∀ p ∈ paths, isRs p = true ∧ env.disk p ≠ ParseDiff.structural) :
    ∀ (m : FileMapT) (msgs : List Template),
      hotReloadPaths env paths m msgs =
        (cleanActs env.disk paths, applyClean env.disk paths m,
          msgs ++ collectPatches env.disk paths, true) := by
  induction paths with
  | nil => intro m msgs; simp [hotReloadPaths, cleanActs, applyClean, collectPatches]
  | cons p rest ih =>
    intro m msgs
    obtain ⟨hrs, hns⟩ := h p (List.mem_cons_self p rest)
    have hrest := fun q hq => h q (List.mem_cons_of_mem p hq)
    rcases hd : env.disk p with ⟨patch, newSeq⟩ | _ | e
    · simp [hotReloadPaths, updateRsx, hd, hrs, cleanActs, applyClean, collectPatches,
        ih hrest]
    · exact absurd hd hns
    · simp [hotReloadPaths, updateRsx, hd, hrs, cleanActs, applyClean, collectPatches,
        ih hrest]

/-- A batch whose first offending path (non-Rust or structural diff)
is `off` rebuilds once at `off` and returns early: the paths after
`off` are untouched and the accumulated messages are returned unsent. -/
theorem hotReloadPaths_offender (env : HotEnv) (pre : List FsPath) (off : FsPath)
    (post : List FsPath)
    (hpre : ∀ p ∈ pre, isRs p = true ∧ env.disk p ≠ ParseDiff.structural)
    (hoff : isRs off = false ∨ env.disk off = ParseDiff.structural) :
    ∀ (m : FileMapT) (msgs : List Template),
      hotReloadPaths env (pre ++ off :: post) m msgs =
        (cleanActs env.disk pre ++
            Act.processPath off :: rebuildAndReport env.cfg env.build,
          applyClean env.disk pre m,
          msgs ++ collectPatches env.disk pre, false) := by
  induction pre with
  | nil =>
    intro m msgs
    by_cases hrs : isRs off = true
    · rcases hoff with hoff | hoff
      · rw [hrs] at hoff; cases hoff
      · simp [hotReloadPaths, hrs, updateRsx, hoff, cleanActs, applyClean, collectPatches]
    · simp [hotReloadPaths, hrs, cleanActs, applyClean, collectPatches]
  | cons p pre' ih =>
    intro m msgs
    obtain ⟨hrs, hns⟩ := hpre p (List.mem_cons_self p pre')
    have hpre' := fun q hq => hpre q (List.mem_cons_of_mem p hq)
    rcases hd : env.disk p with ⟨patch, newSeq⟩ | _ | e
    · simp [hotReloadPaths, updateRsx, hd, hrs, cleanActs, applyClean, collectPatches,
        ih hpre']
    · exact absurd hd hns
    · simp [hotReloadPaths, updateRsx, hd, hrs, cleanActs, applyClean, collectPatches,
        ih hpre']

theorem countBuilds_append (l1 l2 : List Act) :
    countBuilds (l1 ++ l2) = countBuilds l1 + countBuilds l2 := by
  induction l1 with
  | nil => simp [countBuilds]
  | cons a r ih =>
    cases a <;> simp [countBuilds, ih]
    omega

theorem sentTemplates_append (l1 l2 : List Act) :
    sentTemplates (l1 ++ l2) = sentTemplates l1 ++ sentTemplates l2 := by
  induction l1 with
  | nil => simp [sentTemplates]
  | cons a r ih => cases a <;> simp [sentTemplates, ih]

theorem countBuilds_cleanActs (disk : FsPath → ParseDiff) (ps : List FsPath) :
    countBuilds (cleanActs disk ps) = 0 := by
  induction ps with
  | nil => simp [cleanActs, countBuilds]
  | cons p rest ih =>
    rcases hd : disk p with ⟨patch, newSeq⟩ | _ | e <;>
      simp [cleanActs, hd, countBuilds, countBuilds_append, ih]

theorem sentTemplates_cleanActs (disk : FsPath → ParseDiff) (ps : List FsPath) :
    sentTemplates (cleanActs disk ps) = [] := by
  induction ps with
  | nil => simp [cleanActs, sentTemplates]
  | cons p rest ih =>
    rcases hd : disk p with ⟨patch, newSeq⟩ | _ | e <;>
      simp [cleanActs, hd, sentTemplates, sentTemplates_append, ih]

theorem countBuilds_rebuildAndReport (cfg : WatcherConfig)
    (b : Except String BuildResult) :
    countBuilds (rebuildAndReport cfg b) = 1 := by
  rcases b with e | r
  · simp [rebuildAndReport, BuildManager.rebuild, countBuilds, countBuilds_append]
  · rcases cfg with ⟨rh⟩
    rcases rh with _ | b'
    · simp [rebuildAndReport, BuildManager.rebuild, countBuilds, countBuilds_append]
    · cases b' <;>
        simp [rebuildAndReport, BuildManager.rebuild, countBuilds, countBuilds_append]

theorem sentTemplates_rebuildAndReport (cfg : WatcherConfig)
    (b : Except String BuildResult) :
    sentTemplates (rebuildAndReport cfg b) = [] := by
  rcases b with e | r
  · simp [rebuildAndReport, BuildManager.rebuild, sentTemplates, sentTemplates_append]
  · rcases cfg with ⟨rh⟩
    rcases rh with _ | b'
    · simp [rebuildAndReport, BuildManager.rebuild, sentTemplates, sentTemplates_append]
    · cases b' <;>
        simp [rebuildAndReport, BuildManager.rebuild, sentTemplates, sentTemplates_append]

/-- C4 counterexample: a burst of two events in the same clock tick
(both delivered at t = 5) where the rebuild fails: the first is
dispatched but the failed rebuild leaves `last_update_time` at 0, so
the second same-tick event passes the debounce check and is dispatched
too — two dispatches, refuting "at most one event of the burst is
dispatched downstream". -/
theorem c4_counterexample :
    (fileWatcherRun 0 0 [⟨5, 0, false⟩, ⟨5, 0, false⟩]).2.2 =
      [((5 : Int), (5 : Int)), ((5 : Int), (5 : Int))] ∧
    ¬ (fileWatcherRun 0 0 [⟨5, 0, false⟩, ⟨5, 0, false⟩]).2.2.length ≤ 1 := by
  constructor <;> decide

/-- Same-tick events are all dropped once `last_update_time` has caught
up with the tick. -/
theorem fileWatcherRun_sameTick_drop (t : Int) (n : Nat) :
    fileWatcherRun t t (List.replicate n ⟨t, 0, true⟩) = (t, t, []) := by
  induction n with
  | zero => simp [fileWatcherRun]
  | succ k ih =>
    rw [List.replicate_succ, fileWatcherRun_cons, laterOf_eq_left (le_refl t),
      if_neg (lt_irrefl t)]
    exact ih

/-- C4 amended: for a burst of N events in the same clock tick, at most
one is dispatched downstream provided the dispatched event's rebuild
succeeds (advancing the last-accepted timestamp); when the rebuild
fails — or, in the hot-reload watcher, when the handler returns early —
the timestamp is not advanced and later events of the same tick are
dispatched as well (see the counterexample). -/
theorem c4_amended (last t : Int) (n : Nat) (h : last < t) :
    (fileWatcherRun last t (List.replicate (n + 1) ⟨t, 0, true⟩)).2.2 = [(t, t)] := by
  rw [List.replicate_succ, fileWatcherRun_cons, laterOf_eq_left (le_refl t), if_pos h]
  simp [fileWatcherRun_sameTick_drop]

/-- Witness for `c4_amended`: a three-event same-tick burst at t = 5
with successful instantaneous rebuilds dispatches exactly once. -/
theorem c4_amended_witness :
    (fileWatcherRun 0 5 (List.replicate 3 ⟨5, 0, true⟩)).2.2 = [((5 : Int), (5 : Int))] :=
  c4_amended 0 5 2 (by decide)

/-- C5 counterexample: an accepted event (delivered at t = 5, debounce
check 5 > 0 passes, the rebuild is dispatched) whose rebuild fails
leaves `last_update_time` at its initial value 0 — the last-accepted
timestamp is not advanced on every accepted event. -/
theorem c5_counterexample :
    (fileWatcherRun 0 0 [⟨5, 0, false⟩]).2.2.length = 1 ∧
    (fileWatcherRun 0 0 [⟨5, 0, false⟩]).1 = 0 := by
  constructor <;> decide

/-- C5 amended: the timestamp advance is branch-dependent.  In the
default watcher an accepted event advances `last_update_time` only when
its rebuild succeeds; a failed rebuild leaves it unchanged.  In the
hot-reload watcher an accepted batch advances it exactly when the path
loop runs to completion (patch sets and parse errors included); the
early-return branch for a non-source file (and likewise needs-rebuild)
leaves it unchanged. -/
theorem c5_amended :
    (∀ (last clock : Int) (e : WEvent), last < laterOf clock e.arrival → e.ok = true →
      (fileWatcherRun last clock [e]).1 = laterOf clock e.arrival + (e.dur : Int) ∧
      last < (fileWatcherRun last clock [e]).1) ∧
    (∀ (last clock : Int) (e : WEvent), last < laterOf clock e.arrival → e.ok = false →
      (fileWatcherRun last clock [e]).1 = last) ∧
    (∀ (env : HotEnv) (t t2 : Int) (paths : List FsPath) (s : HotState),
      s.last < t → t ≤ t2 →
      (∀ p ∈ paths, isRs p = true ∧ env.disk p ≠ ParseDiff.structural) →
      (hotReloadCallback env t t2 (some paths) s).1.last = t2 ∧
      s.last < (hotReloadCallback env t t2 (some paths) s).1.last) ∧
    (∀ (env : HotEnv) (t t2 : Int) (off : FsPath) (post : List FsPath) (s : HotState),
      s.last < t → isRs off = false →
      (hotReloadCallback env t t2 (some (off :: post)) s).1.last = s.last) := by
  refine ⟨?_, ?_, ?_, ?_⟩
  · intro last clock e h hok
    rw [fileWatcherRun_cons, if_pos h, hok]
    have hd : (0 : Int) ≤ (e.dur : Int) := Int.natCast_nonneg _
    constructor
    · simp [fileWatcherRun]
    · simp [fileWatcherRun]
      omega
  · intro last clock e h hok
    rw [fileWatcherRun_cons, if_pos h, hok]
    simp [fileWatcherRun]
  · intro env t t2 paths s hacc hle hclean
    have hrun := hotReloadPaths_clean env paths hclean s.fileMap []
    constructor
    · simp [hotReloadCallback, hacc, hrun]
    · simp [hotReloadCallback, hacc, hrun]
      omega
  · intro env t t2 off post s hacc hrs
    have hrun := hotReloadPaths_offender env [] off post (by simp) (Or.inl hrs) s.fileMap []
    simp only [List.nil_append] at hrun
    simp [hotReloadCallback, hacc, hrun]

/-- Concrete witness environment: one file that fails to parse, every
other Rust file patchable. -/
def diskA : FsPath → ParseDiff := fun p =>
  if p.name = "bad.rs" then ParseDiff.parseFail "syntax error"
  else ParseDiff.patchable [9] [9]

def envA : HotEnv :=
  { cfg := ⟨none⟩, disk := diskA, build := Except.error "build failed" }

/-- Witness for `c5_amended` at concrete inputs: a successful rebuild
advances the timestamp, a failed one leaves it at 0; a completed
hot-reload batch advances it to the post-batch sample 6, and a non-Rust
path leaves it at 0. -/
theorem c5_amended_witness :
    ((0 : Int) < (fileWatcherRun 0 0 [⟨5, 2, true⟩]).1) ∧
    (fileWatcherRun 0 0 [⟨5, 2, false⟩]).1 = 0 ∧
    (hotReloadCallback envA 5 6 (some [⟨"bad.rs", some "rs"⟩])
      ⟨0, fun _ => []⟩).1.last = 6 ∧
    (hotReloadCallback envA 5 6 (some [⟨"style.css", some "css"⟩])
      ⟨0, fun _ => []⟩).1.last = 0 :=
  ⟨(c5_amended.1 0 0 ⟨5, 2, true⟩ (by decide) rfl).2,
    c5_amended.2.1 0 0 ⟨5, 2, false⟩ (by decide) rfl,
    (c5_amended.2.2.1 envA 5 6 [⟨"bad.rs", some "rs"⟩] ⟨0, fun _ => []⟩
      (by decide) (by decide) (by decide)).1,
    c5_amended.2.2.2 envA 5 6 ⟨"style.css", some "css"⟩ [] ⟨0, fun _ => []⟩
      (by decide) (by decide)⟩

/-- When every path of a batch is patchable, the loop trace is exactly
one marker per path. -/
theorem cleanActs_all_patchable (disk : FsPath → ParseDiff) (ps : List FsPath)
    (h : ∀ p ∈ ps, (disk p).isPatchable = true) :
    cleanActs disk ps = ps.map Act.processPath := by
  induction ps with
  | nil => simp [cleanActs]
  | cons p rest ih =>
    have hp := h p (List.mem_cons_self p rest)
    rcases hd : disk p with ⟨patch, newSeq⟩ | _ | e
    · simp [cleanActs, hd, ih (fun q hq => h q (List.mem_cons_of_mem p hq))]
    · rw [hd] at hp; simp [ParseDiff.isPatchable] at hp
    · rw [hd] at hp; simp [ParseDiff.isPatchable] at hp

/-- C7: for an accepted event whose paths are all Rust source files
that all yield a `PatchSet`, the callback's trace is the whole batch's
path processing followed by the broadcast of every accumulated patch —
no hot-patch message is sent before the last file of the batch has been
processed. -/
theorem c7_batch_broadcast_after_processing (env : HotEnv) (t t2 : Int)
    (paths : List FsPath) (s : HotState) (hacc : s.last < t)
    (h : ∀ p ∈ paths, isRs p = true ∧ (env.disk p).isPatchable = true) :
    (hotReloadCallback env t t2 (some paths) s).2 =
      paths.map Act.processPath ++
        (collectPatches env.disk paths).map Act.sendHotPatch := by
  have hclean : ∀ p ∈ paths, isRs p = true ∧ env.disk p ≠ ParseDiff.structural := by
    intro p hp
    obtain ⟨hrs, hpat⟩ := h p hp
    refine ⟨hrs, ?_⟩
    intro hc
    rw [hc] at hpat
    simp [ParseDiff.isPatchable] at hpat
  have hrun := hotReloadPaths_clean env paths hclean s.fileMap []
  have hca := cleanActs_all_patchable env.disk paths (fun p hp => (h p hp).2)
  simp [hotReloadCallback, hacc, hrun, hca]

/-- Concrete witness environment: two patchable Rust files. -/
def diskB : FsPath → ParseDiff := fun p =>
  if p.name = "a.rs" then ParseDiff.patchable [1, 2] [1, 2]
  else if p.name = "b.rs" then ParseDiff.patchable [5] [5]
  else ParseDiff.structural

def envB : HotEnv := { cfg := ⟨some true⟩, disk := diskB, build := Except.ok ⟨0, 1⟩ }

/-- Witness for `c7_batch_broadcast_after_processing`: a two-file batch
processes both files, then broadcasts the coalesced patches. -/
theorem c7_witness :
    (hotReloadCallback envB 3 3 (some [⟨"a.rs", some "rs"⟩, ⟨"b.rs", some "rs"⟩])
        ⟨0, fun _ => []⟩).2 =
      [⟨"a.rs", some "rs"⟩, ⟨"b.rs", some "rs"⟩].map Act.processPath ++
        (collectPatches envB.disk [⟨"a.rs", some "rs"⟩, ⟨"b.rs", some "rs"⟩]).map
          Act.sendHotPatch :=
  c7_batch_broadcast_after_processing envB 3 3 _ _ (by decide) (by decide)

/-- A file whose diff is never patchable keeps its stored sequence
through a whole batch. -/
theorem applyClean_untouched (disk : FsPath → ParseDiff) (ps : List FsPath)
    (q : FsPath) (hq : (disk q).isPatchable = false) :
    ∀ m : FileMapT, applyClean disk ps m q = m q := by
  induction ps with
  | nil => intro m; simp [applyClean]
  | cons p rest ih =>
    intro m
    rcases hd : disk p with ⟨patch, newSeq⟩ | _ | e
    · have hqp : q ≠ p := by
        intro he
        rw [he, hd] at hq
        simp [ParseDiff.isPatchable] at hq
      simp [applyClean, hd, ih, hqp]
    · simp [applyClean, hd, ih]
    · simp [applyClean, hd, ih]

/-- A patchable file's patch records appear in the batch's collected
patches. -/
theorem collectPatches_contains (disk : FsPath → ParseDiff) (pb : FsPath)
    (patch newSeq : List Template) (hd : disk pb = ParseDiff.patchable patch newSeq) :
    ∀ ps : List FsPath, pb ∈ ps → ∀ tpl ∈ patch, tpl ∈ collectPatches disk ps := by
  intro ps
  induction ps with
  | nil => intro h; cases h
  | cons p rest ih =>
    intro hpb tpl htpl
    rcases List.mem_cons.mp hpb with h | h
    · subst h
      simp [collectPatches, hd]
      exact Or.inl htpl
    · have hmem := ih h tpl htpl
      rcases hdp : disk p with ⟨a, b⟩ | _ | e <;>
        simp [collectPatches, hdp] <;> tauto

/-- A file that fails to parse contributes its error log to the batch
trace. -/
theorem cleanActs_logs_parseFail (disk : FsPath → ParseDiff) (pa : FsPath)
    (e : String) (hd : disk pa = ParseDiff.parseFail e) :
    ∀ ps : List FsPath, pa ∈ ps → Act.logError e ∈ cleanActs disk ps := by
  intro ps
  induction ps with
  | nil => intro h; cases h
  | cons p rest ih =>
    intro hpa
    rcases List.mem_cons.mp hpa with h | h
    · subst h
      simp [cleanActs, hd]
    · have hmem := ih h
      rcases hdp : disk p with ⟨a, b⟩ | _ | e2 <;>
        simp [cleanActs, hdp] <;> tauto

/-- C8: in an accepted batch that runs to completion, a file whose
update returns a parse `Error` has the error logged and its stored
template state left untouched, while any other file of the same batch
whose update yields a `PatchSet` still has its records computed and
broadcast. -/
theorem c8_parse_error_isolated (env : HotEnv) (t t2 : Int) (paths : List FsPath)
    (s : HotState) (pa pb : FsPath) (e : String) (patch newSeq : List Template)
    (hacc : s.last < t)
    (hclean : ∀ p ∈ paths, isRs p = true ∧ env.disk p ≠ ParseDiff.structural)
    (hpa : pa ∈ paths) (hpaDisk : env.disk pa = ParseDiff.parseFail e)
    (hpb : pb ∈ paths) (hpbDisk : env.disk pb = ParseDiff.patchable patch newSeq) :
    Act.logError e ∈ (hotReloadCallback env t t2 (some paths) s).2 ∧
    (hotReloadCallback env t t2 (some paths) s).1.fileMap pa = s.fileMap pa ∧
    ∀ tpl ∈ patch, Act.sendHotPatch tpl ∈ (hotReloadCallback env t t2 (some paths) s).2 := by
  have hrun := hotReloadPaths_clean env paths hclean s.fileMap []
  have hcb : hotReloadCallback env t t2 (some paths) s =
      ({ last := t2, fileMap := applyClean env.disk paths s.fileMap },
        cleanActs env.disk paths ++
          (collectPatches env.disk paths).map Act.sendHotPatch) := by
    simp [hotReloadCallback, hacc, hrun]
  rw [hcb]
  refine ⟨?_, ?_, ?_⟩
  · exact List.mem_append.mpr
      (Or.inl (cleanActs_logs_parseFail env.disk pa e hpaDisk paths hpa))
  · exact applyClean_untouched env.disk paths pa
      (by rw [hpaDisk]; simp [ParseDiff.isPatchable]) s.fileMap
  · intro tpl htpl
    exact List.mem_append.mpr (Or.inr (List.mem_map.mpr
      ⟨tpl, collectPatches_contains env.disk pb patch newSeq hpbDisk paths hpb tpl htpl,
        rfl⟩))

/-- Witness for `c8_parse_error_isolated`: a batch with a failing file
and a patchable one — the error is logged, the failing file's stored
sequence stays `[4]`, and the other file's patch `[9]` is broadcast. -/
theorem c8_witness :
    Act.logError "syntax error" ∈
      (hotReloadCallback envA 1 2 (some [⟨"bad.rs", some "rs"⟩, ⟨"good.rs", some "rs"⟩])
        ⟨0, fun _ => [4]⟩).2 ∧
    (hotReloadCallback envA 1 2 (some [⟨"bad.rs", some "rs"⟩, ⟨"good.rs", some "rs"⟩])
        ⟨0, fun _ => [4]⟩).1.fileMap ⟨"bad.rs", some "rs"⟩ =
      (⟨0, fun _ => [4]⟩ : HotState).fileMap ⟨"bad.rs", some "rs"⟩ ∧
    ∀ tpl ∈ ([9] : List Template),
      Act.sendHotPatch tpl ∈
        (hotReloadCallback envA 1 2 (some [⟨"bad.rs", some "rs"⟩, ⟨"good.rs", some "rs"⟩])
          ⟨0, fun _ => [4]⟩).2 :=
  c8_parse_error_isolated envA 1 2 [⟨"bad.rs", some "rs"⟩, ⟨"good.rs", some "rs"⟩]
    ⟨0, fun _ => [4]⟩ ⟨"bad.rs", some "rs"⟩ ⟨"good.rs", some "rs"⟩ "syntax error" [9] [9]
    (by decide) (by decide) (by decide) (by decide) (by decide) (by decide)

/-- C9: in the hot-reload watcher, when an accepted batch contains an
offending path — not a Rust source file, or a structural diff making
the template index return `NeedsRebuild` — exactly one full rebuild is
triggered at the first such path and the handler returns immediately:
the trace is the clean prefix, the offender's marker, and the rebuild
report; no accumulated hot patch is broadcast, the paths after the
offender are not processed, and `last_update_time` is not advanced. -/
theorem c9_offender_early_return (env : HotEnv) (t t2 : Int) (pre : List FsPath)
    (off : FsPath) (post : List FsPath) (s : HotState)
    (hacc : s.last < t)
    (hpre : ∀ p ∈ pre, isRs p = true ∧ env.disk p ≠ ParseDiff.structural)
    (hoff : isRs off = false ∨ env.disk off = ParseDiff.structural) :
    (hotReloadCallback env t t2 (some (pre ++ off :: post)) s).2 =
      cleanActs env.disk pre ++
        Act.processPath off :: rebuildAndReport env.cfg env.build ∧
    countBuilds (hotReloadCallback env t t2 (some (pre ++ off :: post)) s).2 = 1 ∧
    sentTemplates (hotReloadCallback env t t2 (some (pre ++ off :: post)) s).2 = [] ∧
    (hotReloadCallback env t t2 (some (pre ++ off :: post)) s).1.last = s.last := by
  have hrun := hotReloadPaths_offender env pre off post hpre hoff s.fileMap []
  have hcb : hotReloadCallback env t t2 (some (pre ++ off :: post)) s =
      ({ last := s.last, fileMap := applyClean env.disk pre s.fileMap },
        cleanActs env.disk pre ++
          Act.processPath off :: rebuildAndReport env.cfg env.build) := by
    simp [hotReloadCallback, hacc, hrun]
  rw [hcb]
  refine ⟨rfl, ?_, ?_, rfl⟩
  · rw [countBuilds_append, countBuilds_cleanActs]
    simp [countBuilds, countBuilds_rebuildAndReport]
  · rw [sentTemplates_append, sentTemplates_cleanActs]
    simp [sentTemplates, sentTemplates_rebuildAndReport]

/-- Witness for `c9_offender_early_return`: a batch whose second path
is a CSS file — one rebuild, nothing broadcast, timestamp unchanged. -/
theorem c9_witness :
    (hotReloadCallback envA 1 2
        (some ([⟨"bad.rs", some "rs"⟩] ++ ⟨"style.css", some "css"⟩ :: [⟨"good.rs", some "rs"⟩]))
        ⟨0, fun _ => [4]⟩).2 =
      cleanActs envA.disk [⟨"bad.rs", some "rs"⟩] ++
        Act.processPath ⟨"style.css", some "css"⟩ ::
          rebuildAndReport envA.cfg envA.build ∧
    countBuilds (hotReloadCallback envA 1 2
        (some ([⟨"bad.rs", some "rs"⟩] ++ ⟨"style.css", some "css"⟩ :: [⟨"good.rs", some "rs"⟩]))
        ⟨0, fun _ => [4]⟩).2 = 1 ∧
    sentTemplates (hotReloadCallback envA 1 2
        (some ([⟨"bad.rs", some "rs"⟩] ++ ⟨"style.css", some "css"⟩ :: [⟨"good.rs", some "rs"⟩]))
        ⟨0, fun _ => [4]⟩).2 = [] ∧
    (hotReloadCallback envA 1 2
        (some ([⟨"bad.rs", some "rs"⟩] ++ ⟨"style.css", some "css"⟩ :: [⟨"good.rs", some "rs"⟩]))
        ⟨0, fun _ => [4]⟩).1.last = (⟨0, fun _ => [4]⟩ : HotState).last :=
  c9_offender_early_return envA 1 2 [⟨"bad.rs", some "rs"⟩] ⟨"style.css", some "css"⟩
    [⟨"good.rs", some "rs"⟩] ⟨0, fun _ => [4]⟩
    (by decide) (by decide) (Or.inl (by decide))

theorem setupFileWatcherRegister_ok_iff (f : FsPath → Bool) (ps : List FsPath) :
    setupFileWatcherRegister f ps = WatchRegResult.ok ↔ ∀ p ∈ ps, f p = true := by
  induction ps with
  | nil => simp [setupFileWatcherRegister]
  | cons q rest ih =>
    cases hq : f q <;> simp [setupFileWatcherRegister, hq, ih]

theorem setupFileWatcherRegister_panics (f : FsPath → Bool) (pre : List FsPath)
    (p : FsPath) (post : List FsPath) :
    (∀ q ∈ pre, f q = true) → f p = false →
    setupFileWatcherRegister f (pre ++ p :: post) = WatchRegResult.panicked p := by
  induction pre with
  | nil => intro _ hp; simp [setupFileWatcherRegister, hp]
  | cons q rest ih =>
    intro hpre hp
    have hq := hpre q (List.mem_cons_self q rest)
    simp only [List.cons_append, setupFileWatcherRegister, hq, if_pos]
    exact ih (fun r hr => hpre r (List.mem_cons_of_mem q hr)) hp

theorem hotReloadRegister_length (f : FsPath → Bool) (ps : List FsPath) :
    (setupFileWatcherHotReloadRegister f ps).length =
      (ps.filter fun p => !(f p)).length := by
  induction ps with
  | nil => simp [setupFileWatcherHotReloadRegister]
  | cons q rest ih =>
    cases hq : f q <;>
      simp [setupFileWatcherHotReloadRegister, List.filter_cons, hq, ih]

/-- C3 counterexample: with watch roots `a` and `b` where only `b` can
be registered, the non-hot-reload registration loop panics at `a`
(aborting startup even though another root remains watchable); and in
hot-reload mode, with the single root `a` unwatchable — no root at all
can be watched — registration merely logs and completes instead of
failing fatally.  Both directions of the claim fail. -/
theorem c3_counterexample :
    setupFileWatcherRegister (fun p => p.name == "b") [⟨"a", none⟩, ⟨"b", none⟩] =
      WatchRegResult.panicked ⟨"a", none⟩ ∧
    setupFileWatcherHotReloadRegister (fun _ => false) [⟨"a", none⟩] =
      [Act.logError "a"] := by
  constructor <;> decide

/-- C3 amended: the two modes differ.  In non-hot-reload mode the
registration loop `unwrap`s each watch call, so it succeeds iff every
root registers and panics at the first failing root even when others
remain watchable; in hot-reload mode every failure is logged (one log
per failing root) and registration always completes — startup does not
fail even when no root at all can be watched. -/
theorem c3_amended :
    (∀ (f : FsPath → Bool) (ps : List FsPath),
      setupFileWatcherRegister f ps = WatchRegResult.ok ↔ ∀ p ∈ ps, f p = true) ∧
    (∀ (f : FsPath → Bool) (pre : List FsPath) (p : FsPath) (post : List FsPath),
      (∀ q ∈ pre, f q = true) → f p = false →
      setupFileWatcherRegister f (pre ++ p :: post) = WatchRegResult.panicked p) ∧
    (∀ (f : FsPath → Bool) (ps : List FsPath),
      (setupFileWatcherHotReloadRegister f ps).length =
        (ps.filter fun p => !(f p)).length) :=
  ⟨setupFileWatcherRegister_ok_iff, setupFileWatcherRegister_panics,
    hotReloadRegister_length⟩

/-- Witness for `c3_amended` at concrete inputs. -/
theorem c3_amended_witness :
    setupFileWatcherRegister (fun p : FsPath => p.name == "b") [⟨"b", none⟩] =
      WatchRegResult.ok ∧
    setupFileWatcherRegister (fun p : FsPath => p.name == "b")
      ([⟨"b", none⟩] ++ ⟨"a", none⟩ :: [⟨"c", none⟩]) =
      WatchRegResult.panicked ⟨"a", none⟩ ∧
    (setupFileWatcherHotReloadRegister (fun p : FsPath => p.name == "b")
        [⟨"a", none⟩, ⟨"b", none⟩]).length =
      (([⟨"a", none⟩, ⟨"b", none⟩] : List FsPath).filter
        fun p => !((fun p : FsPath => p.name == "b") p)).length :=
  ⟨(c3_amended.1 _ _).mpr (by decide),
    c3_amended.2.1 _ [⟨"b", none⟩] ⟨"a", none⟩ [⟨"c", none⟩] (by decide) (by decide),
    c3_amended.2.2 _ _⟩

/-- C1: when a session gateway's subscription backlog overflows
(`n - c > cap`), the next `rx.recv()` yields the distinguishable
`RecvError::Lagged` signal — but `ws_handler` calls `.unwrap()` on it,
so the gateway task panics instead of forwarding a full-resync signal
and re-subscribing: the loop terminates and the connection dies.  This
contradicts the specified (and clearly intended) lag handling, so it is
a code bug, not a spec error. -/
theorem c1_overflow_panics (cap n c nResub : Nat) (sendOk : Bool)
    (h : cap < n - c) :
    wsHandlerStep cap n c sendOk nResub = GatewayOutcome.panicked := by
  simp [wsHandlerStep, h]

/-- Witness for `c1_overflow_panics`: capacity 100, cursor 0, 101
messages published — the read is lagged and the gateway panics. -/
theorem c1_overflow_panics_witness :
    wsHandlerStep 100 101 0 true 101 = GatewayOutcome.panicked :=
  c1_overflow_panics 100 101 0 101 true (by decide)

/-- C10: after every successful forward the gateway replaces its
receiver by `rx.resubscribe()`, whose cursor is the tail of the channel
at re-subscription time (`nResub`); messages published between the
receive and the re-subscription are therefore skipped without any
missed-message indication.  Concretely, with capacity 100: one message
is received and forwarded, two more are published before the
resubscribe, and the run ends having forwarded 1 of the 3 published
reload signals with no lag ever signalled. -/
theorem c10_resubscribe_drops_pending (cap n c nResub : Nat)
    (_hmsg : c < n) (hnolag : n - c ≤ cap) (_htail : n ≤ nResub) :
    wsHandlerStep cap n c true nResub = GatewayOutcome.forwarded nResub ∧
    wsHandlerRun 100 0 [(1, true, 3)] = (1, false) := by
  constructor
  · have hn : ¬ cap < n - c := not_lt.mpr hnolag
    simp [wsHandlerStep, hn]
  · decide

/-- Witness for `c10_resubscribe_drops_pending`. -/
theorem c10_witness :
    wsHandlerStep 100 1 0 true 3 = GatewayOutcome.forwarded 3 ∧
    wsHandlerRun 100 0 [(1, true, 3)] = (1, false) :=
  c10_resubscribe_drops_pending 100 1 0 3 (by decide) (by decide) (by decide)
